import Mathlib

/-!
Verification development for pandoc-tablenos (src/pandoc_tablenos.py, v2.3.0).

The filter's first pass (`_process_table`, `_adjust_caption`, `_add_markup`,
composed by `process_tables`) and the data it manipulates are embedded below as
executable Lean definitions, translated line by line from the source.  The
document model follows the pandoc >= 2.11 schema branch of the source (the
branch taken for every modern pandoc): a Table value is an attribute triple, a
caption block list, and an opaque tail (colspecs, head, bodies, foot) that the
filter never inspects.  Machinery that lives in the external pandocxnos
package (section-number stamping, citation replacement, attribute extraction)
is modelled from the specification, marked as such in doc comments.

Python exceptions are modelled with the Except monad: an operation that the
source performs without a guard (dict subscription, list indexing) is embedded
as a lookup that returns an error value when the source would raise.
-/

set_option autoImplicit false

deriving instance DecidableEq for Except

namespace Tablenos

/-- Inline node kinds used by the filter (pandocfilters Str, Space, RawInline,
Math, plus the citation shape consumed by the second pass).  A Cite carries
the target label and the raw citation text that remains visible when the
label cannot be resolved; the filter never inspects a citation's inner inline
list, so it is kept as raw text here. -/
inductive Inline where
  | Str : String → Inline
  | Space : Inline
  | RawInline : String → String → Inline
  | MathInline : String → Inline
  | Cite : String → String → Inline
deriving DecidableEq, Repr

/-- Pandoc attributes as seen through pandocxnos.PandocAttributes: an id, a
class list and a key-value list.  The `secno` field models the section number
that pandocxnos.insert_secnos_factory stamps into the attributes before
`process_tables` runs (an integer, read back by the source as
`attrs["secno"]`). -/
structure Attrs where
  id : String
  classes : List String
  kvs : List (String × String)
  secno : Nat
deriving DecidableEq, Repr

/-- Python dict-style lookup in a key-value list. -/
def lookupKV : List (String × String) → String → Option String
  | [], _ => none
  | (k, v) :: rest, key => if k = key then some v else lookupKV rest key

/-- Python dict-style update in a key-value list: overwrite in place if the key
exists, append otherwise. -/
def setKV : List (String × String) → String → String → List (String × String)
  | [], key, v => [(key, v)]
  | (k, v') :: rest, key, v =>
      if k = key then (key, v) :: rest else (k, v') :: setKV rest key v

/-- A stored reference target, pandocxnos.Target: the number-or-tag, the owning
section, and the duplicate flag. -/
inductive TargetNum where
  | num : Nat → TargetNum
  | tag : String → TargetNum
deriving DecidableEq, Repr

structure Target where
  num : TargetNum
  secno : Option Nat
  has_duplicate : Bool
deriving DecidableEq, Repr

/-- The global `targets` tracker, a dict from label to Target. -/
abbrev Targets := List (String × Target)

def lookupTarget : Targets → String → Option Target
  | [], _ => none
  | (k, t) :: rest, key => if k = key then some t else lookupTarget rest key

/-- Python `key in targets`. -/
def containsTarget (ts : Targets) (key : String) : Bool :=
  (lookupTarget ts key).isSome

/-- Python `targets[key] = t` (overwrite in place or append). -/
def setTarget : Targets → String → Target → Targets
  | [], key, t => [(key, t)]
  | (k, t') :: rest, key, t =>
      if k = key then (key, t) :: rest else (k, t') :: setTarget rest key t

/-- The module-level processing state of pandoc_tablenos: `cursec`, `Ntargets`,
`targets`, and the document-wide flags.  `uuidCount` indexes the fresh-name
generator that models `uuid.uuid4()` (see `uuidStr`). -/
structure FilterState where
  cursec : Option Nat
  Ntargets : Nat
  targets : Targets
  has_unnumbered_tables : Bool
  has_tagged_tables : Bool
  uuidCount : Nat
deriving DecidableEq, Repr

/-- The interpreter-startup values of the module-level state variables
(cursec = None, Ntargets = 0, targets = empty, flags False). -/
def initState : FilterState :=
  { cursec := none, Ntargets := 0, targets := [], has_unnumbered_tables := false,
    has_tagged_tables := false, uuidCount := 0 }

/-- The configuration fields of the source that the numbering pass reads
(captionname, separator, numbersections, secoffset), populated by process()
from the document metadata. -/
structure Config where
  captionname : String
  separator : String
  numbersections : Bool
  secoffset : Nat
deriving DecidableEq, Repr

/-- pandocxnos.NBSP, the non-breaking space placed between the caption name and
the number. -/
def NBSP : String := "\u00A0"

/-- The test `LABEL_PATTERN.match(s)` for the source's LABEL_PATTERN, the
regex group tbl: followed by zero or more word, slash or hyphen characters:
re.match anchors only at the start and the character class is starred (it may
match the empty string, and the match need not span the whole input), so the
regex matches exactly when the string starts with "tbl:". -/
def matchesLabel (s : String) : Bool := "tbl:".toList.isPrefixOf s.toList

/-- Models `str(uuid.uuid4())`: an injective fresh-name generator indexed by a
per-run counter.  The source relies only on the generated id being fresh; the
concrete characters are irrelevant (the id is used as a dict key and in output
anchors). -/
def uuidStr (n : Nat) : String := String.mk (List.replicate (n + 1) 'u')

/-- A pandoc >= 2.11 Table value: value[0] is the attribute triple, value[1]
is the caption (whose second component is the block list, each block a Plain
with inline content), and `rest` abstracts value[2..5] (colspecs, head,
bodies, foot), which the filter passes through untouched. -/
structure TableValue where
  attrs : Attrs
  captionBlocks : List (List Inline)
  rest : Nat
deriving DecidableEq, Repr

/-- The caption inline list read by _process_table: value[1][1][0]["c"] when
the caption block list is nonempty, and [] otherwise (source lines 176-180). -/
def captionOf (v : TableValue) : List Inline :=
  match v.captionBlocks with
  | [] => []
  | b :: _ => b

def dquoteChar : Char := Char.ofNat 34

def squoteChar : Char := Char.ofNat 39

/-- Python str.strip(c) for a single character: remove every leading and
trailing occurrence of c. -/
def stripChar (c : Char) (s : String) : String :=
  String.mk (((s.toList.dropWhile (· = c)).reverse.dropWhile (· = c)).reverse)

/-- The tag quote-stripping of source lines 214-218: matching surrounding
double or single quotes are stripped (with Python strip semantics, i.e. all
leading and trailing quote characters go).  Python's tag[0] and tag[-1] are
the head and last of the character list; the caller has already ruled out the
empty tag (which raises IndexError at the subscription). -/
def stripTag (tg : String) : String :=
  if tg.toList.head? = some dquoteChar ∧ tg.toList.getLast? = some dquoteChar then
    stripChar dquoteChar tg
  else if tg.toList.head? = some squoteChar ∧ tg.toList.getLast? = some squoteChar then
    stripChar squoteChar tg
  else tg

/-- The per-table result dict built by _process_table (plus the parsed attrs
and caption it stores into that dict).  In the pandoc >= 2.10 schema a Table
value always carries an attribute slot, so `attrs` and `caption` are always
present. -/
structure TableInfo where
  is_unnumbered : Bool
  is_unreferenceable : Bool
  is_tagged : Bool
  attrs : Attrs
  caption : List Inline
deriving DecidableEq, Repr

/-- Source lines 206-208: the output formats for which pandoc's own
--number-sections support makes the filter synthesize a section.ordinal tag. -/
def isHtmlOrDocx (fmt : String) : Bool :=
  fmt = "html" || fmt = "html4" || fmt = "html5" || fmt = "epub" ||
  fmt = "epub2" || fmt = "epub3" || fmt = "docx"

/-- The html output family used by _adjust_caption and _add_markup. -/
def isHtmlFmt (fmt : String) : Bool :=
  fmt = "html" || fmt = "html4" || fmt = "html5" || fmt = "epub" ||
  fmt = "epub2" || fmt = "epub3"

def isLatexFmt (fmt : String) : Bool :=
  fmt = "latex" || fmt = "beamer"

/-- _process_table (source lines 148-225), pandoc >= 2.11 branch.  Returns the
updated module state and the table dict.  The Except layer models the uncaught
IndexError that Python raises at line 215 when subscripting an empty tag
string.  Mutations of the PandocAttributes object do not write back into
value[0], so the TableValue itself is unchanged; the possibly rewritten attrs
travel in the returned TableInfo (mirroring table["attrs"]). -/
def processTable (cfg : Config) (fmt : String) (st : FilterState) (v : TableValue) :
    Except String (FilterState × TableInfo) :=
  -- Bail out if the label does not conform to expectations (lines 182-186)
  if matchesLabel v.attrs.id = false then
    .ok ({ st with has_unnumbered_tables := true },
         { is_unnumbered := true, is_unreferenceable := true, is_tagged := false,
           attrs := v.attrs, caption := captionOf v })
  else
    -- Identify unreferenceable tables (lines 188-191)
    let anon := v.attrs.id = "tbl:"
    let attrs1 := if anon then { v.attrs with id := "tbl:" ++ uuidStr st.uuidCount }
                  else v.attrs
    let st1 := if anon then { st with uuidCount := st.uuidCount + 1 } else st
    -- Update the current section number (lines 193-197)
    let st2 :=
      if some attrs1.secno ≠ st1.cursec then
        { st1 with cursec := some attrs1.secno,
                   Ntargets := if cfg.numbersections then 0 else st1.Ntargets }
      else st1
    -- Increment the targets counter (lines 199-201)
    let st3 :=
      if lookupKV attrs1.kvs "tag" = none then { st2 with Ntargets := st2.Ntargets + 1 }
      else st2
    -- Synthesize a section.ordinal tag (lines 205-209)
    let synthTag := toString (attrs1.secno + cfg.secoffset) ++ "." ++ toString st3.Ntargets
    let attrs2 :=
      if cfg.numbersections ∧ isHtmlOrDocx fmt = true ∧ lookupKV attrs1.kvs "tag" = none then
        { attrs1 with kvs := setKV attrs1.kvs "tag" synthTag }
      else attrs1
    -- Save reference information (lines 211-223)
    match lookupKV attrs2.kvs "tag" with
    | some tg =>
        if tg = "" then .error "IndexError"
        else
          let tg' := stripTag tg
          let attrs3 := { attrs2 with kvs := setKV attrs2.kvs "tag" tg' }
          let tgt : Target :=
            { num := .tag tg', secno := st3.cursec,
              has_duplicate := containsTarget st3.targets attrs3.id }
          .ok ({ st3 with targets := setTarget st3.targets attrs3.id tgt },
               { is_unnumbered := false, is_unreferenceable := anon, is_tagged := true,
                 attrs := attrs3, caption := captionOf v })
    | none =>
        let tgt : Target :=
          { num := .num st3.Ntargets, secno := st3.cursec,
            has_duplicate := containsTarget st3.targets attrs2.id }
        .ok ({ st3 with targets := setTarget st3.targets attrs2.id tgt },
             { is_unnumbered := false, is_unreferenceable := anon, is_tagged := false,
               attrs := attrs2, caption := captionOf v })

/-- The caption separator glyph dictionary of source line 244 (subscripted with
the configured separator; a KeyError on an invalid separator is modelled by
the none case). -/
def sepGlyph : String → Option String
  | "none" => some ""
  | "colon" => some ":"
  | "period" => some "."
  | "space" => some " "
  | "quad" => some "\u2000"
  | "newline" => some "\n"
  | _ => none

/-- The assignment value[1][1][0]["c"] = c of _adjust_caption: subscripting an
empty caption block list raises IndexError. -/
def setCaptionContent (v : TableValue) (c : List Inline) : Except String TableValue :=
  match v.captionBlocks with
  | [] => .error "IndexError"
  | _ :: rest => .ok { v with captionBlocks := c :: rest }

/-- The augmented assignment value[1][1][0]["c"] += c of _adjust_caption. -/
def appendCaptionContent (v : TableValue) (c : List Inline) : Except String TableValue :=
  match v.captionBlocks with
  | [] => .error "IndexError"
  | b :: rest => .ok { v with captionBlocks := (b ++ c) :: rest }

/-- Python percent-s formatting of a Target num (an int prints as its decimal
digits, a str prints as itself). -/
def renderNum : TargetNum → String
  | .num n => toString n
  | .tag s => s

/-- Python tag.replace(" ", backslash-space) followed by the [1:-1] slice,
building the inline math content of a math tag (source line 269). -/
def mathOf (s : String) : String :=
  String.mk (((s.toList.map (fun c => if c = ' ' then ['\\', ' '] else [c])).flatten.drop 1).dropLast)

/-- _adjust_caption (source lines 229-298), pandoc >= 2.11 branch.  The
unguarded dict subscription targets[attrs.id] at line 232 is modelled as a
lookup that errors with "KeyError" when the label was never stored. -/
def adjustCaption (cfg : Config) (fmt : String) (st : FilterState)
    (info : TableInfo) (v : TableValue) : Except String TableValue := do
  let attrs := info.attrs
  let caption := info.caption
  let t ← match lookupTarget st.targets attrs.id with
    | some t => Except.ok t
    | none => Except.error "KeyError"
  if isLatexFmt fmt then
    -- Append a label if this is referenceable (lines 233-241)
    if info.is_unreferenceable = false then
      appendCaptionContent v
        [Inline.RawInline "tex" ("\\label\x7b" ++ attrs.id ++ "\x7d")]
    else
      pure v
  else
    -- Hard-code in the caption name and number or tag (lines 243-298)
    let sep ← match sepGlyph cfg.separator with
      | some s => Except.ok s
      | none => Except.error "KeyError"
    let v ← match t.num with
      | .num n =>
          if isHtmlFmt fmt then
            setCaptionContent v
              [Inline.RawInline "html" "<span>",
               Inline.Str (cfg.captionname ++ NBSP), Inline.Str (toString n ++ sep),
               Inline.RawInline "html" "</span>"]
          else
            setCaptionContent v
              [Inline.Str (cfg.captionname ++ NBSP), Inline.Str (toString n ++ sep)]
      | .tag s =>
          let els :=
            if s.toList.head? = some '$' ∧ s.toList.getLast? = some '$' then
              [Inline.MathInline (mathOf s), Inline.Str sep]
            else
              [Inline.Str (s ++ sep)]
          if isHtmlFmt fmt then
            setCaptionContent v
              ([Inline.RawInline "html" "<span>", Inline.Str (cfg.captionname ++ NBSP)]
                ++ els ++ [Inline.RawInline "html" "</span>"])
          else
            setCaptionContent v ([Inline.Str (cfg.captionname ++ NBSP)] ++ els)
    appendCaptionContent v ([Inline.Space] ++ caption)

/-- Block nodes: tables, paragraphs (holding the document's citation-bearing
prose), and raw blocks emitted by _add_markup. -/
inductive Block where
  | TableB : TableValue → Block
  | Para : List Inline → Block
  | RawBlock : String → String → Block
deriving DecidableEq, Repr

/-- _add_markup (source lines 300-342).  Returns the updated state and the
optional replacement block list (None meaning the walker keeps the node). -/
def addMarkup (fmt : String) (st : FilterState) (info : TableInfo) (v : TableValue) :
    Except String (FilterState × Option (List Block)) :=
  if info.is_unnumbered then
    if isLatexFmt fmt then
      .ok (st, some [Block.RawBlock "tex" "\\begin\x7btablenos:no-prefix-table-caption\x7d",
                     Block.TableB v,
                     Block.RawBlock "tex" "\\end\x7btablenos:no-prefix-table-caption\x7d"])
    else
      .ok (st, none)
  else
    let attrs := info.attrs
    if isLatexFmt fmt then
      if info.is_tagged then
        match lookupTarget st.targets attrs.id with
        | none => .error "KeyError"
        | some t =>
            .ok ({ st with has_tagged_tables := true },
                 some [Block.RawBlock "tex"
                         ("\\begin\x7btablenos:tagged-table\x7d[" ++ renderNum t.num ++ "]"),
                       Block.TableB v,
                       Block.RawBlock "tex" "\\end\x7btablenos:tagged-table\x7d"])
      else
        .ok (st, none)
    else if isHtmlFmt fmt then
      if matchesLabel attrs.id then
        .ok (st, some [Block.RawBlock "html"
                         ("<div id=\"" ++ attrs.id ++ "\" class=\"tablenos\">"),
                       Block.TableB v,
                       Block.RawBlock "html" "</div>"])
      else
        .ok (st, none)
    else if fmt = "docx" then
      .ok (st, some [Block.RawBlock "openxml"
                       ("<w:bookmarkStart w:id=\"0\" w:name=\"" ++ attrs.id ++ "\"/>"),
                     Block.TableB v,
                     Block.RawBlock "openxml" "<w:bookmarkEnd w:id=\"0\"/>"])
    else
      .ok (st, none)

/-- process_tables (source lines 346-358) on one block: process the table,
adjust the caption whenever the parsed attrs carry a non-empty id, then add
the markup.  Since the source mutates value in place, a None return from
_add_markup keeps the caption-adjusted table. -/
def processTablesBlock (cfg : Config) (fmt : String) (st : FilterState) (b : Block) :
    Except String (FilterState × List Block) :=
  match b with
  | Block.TableB v => do
      let (st, info) ← processTable cfg fmt st v
      let v ← if info.attrs.id ≠ "" then adjustCaption cfg fmt st info v else pure v
      let (st, ret) ← addMarkup fmt st info v
      pure (st, ret.getD [Block.TableB v])
  | b => pure (st, [b])

/-- The first-pass walk over the document's block list, threading the module
state and splicing each action result in place. -/
def processBlocks (cfg : Config) (fmt : String) :
    FilterState → List Block → Except String (FilterState × List Block)
  | st, [] => .ok (st, [])
  | st, b :: bs => do
      let (st, rb) ← processTablesBlock cfg fmt st b
      let (st, rest) ← processBlocks cfg fmt st bs
      pure (st, rb ++ rest)

/-- The state evolution of the first pass over the document's tables alone
(the caption and markup steps never change the stored targets or counters for
non-TeX formats, so claims about target assignment are stated over this
fold). -/
def processTableSeq (cfg : Config) (fmt : String) :
    FilterState → List TableValue → Except String FilterState
  | st, [] => .ok st
  | st, v :: vs =>
      match processTable cfg fmt st v with
      | .error e => .error e
      | .ok (st', _) => processTableSeq cfg fmt st' vs

def braceOpen : Char := Char.ofNat 123

def braceClose : Char := Char.ofNat 125

/-- The scan of attach_attrs_table (source lines 130-133): whether an inline
is a Str whose content starts with an opening brace. -/
def strStartsWithBrace : Inline → Bool
  | Inline.Str s => s.toList.head? = some braceOpen
  | _ => false

/-- Splitting a character list at a separator character (the model of Python
str.split used by the spec-modelled attribute parser). -/
def splitChar (sep : Char) : List Char → List Char → List String
  | [], acc => [String.mk acc.reverse]
  | c :: rest, acc =>
      if c = sep then String.mk acc.reverse :: splitChar sep rest []
      else splitChar sep rest (c :: acc)

/-- Stringification of an inline run, used when gathering the text of a
trailing attribute clause (Str contributes its text, Space a blank). -/
def stringifyInlines : List Inline → String
  | [] => ""
  | Inline.Str s :: r => s ++ stringifyInlines r
  | Inline.Space :: r => " " ++ stringifyInlines r
  | _ :: r => stringifyInlines r

/-- Modelled from the spec: the attribute grammar of pandocxnos.extract_attrs
(external to this repository), section 4.1 of the spec: inside the braces, a
hash token gives the id, a dot token appends a class, and a key=value token
appends a key-value pair (quotes around the value are preserved here; the
numbering engine strips them later). -/
def parseAttrsInner (s : String) : String × List String × List (String × String) :=
  let toks := (splitChar ' ' s.toList []).filter (fun t => t ≠ "")
  toks.foldl
    (fun acc tok =>
      match tok.toList with
      | '#' :: rest => (String.mk rest, acc.2.1, acc.2.2)
      | '.' :: rest => (acc.1, acc.2.1 ++ [String.mk rest], acc.2.2)
      | _ =>
          match splitChar '=' tok.toList [] with
          | [k, vv] => (acc.1, acc.2.1, acc.2.2 ++ [(k, vv)])
          | _ => acc)
    ("", [], [])

/-- Splits a caption at the first Str opening with a brace: the retained
prefix and the consumed attribute run.  none when no such Str exists, in which
case extract_attrs raises IndexError, attach_attrs_table catches it, and the
table is left unchanged (source lines 130-145). -/
def splitAtBrace : List Inline → Option (List Inline × List Inline)
  | [] => none
  | i :: r =>
      if strStartsWithBrace i then some ([], i :: r)
      else
        match splitAtBrace r with
        | none => none
        | some (before, run) => some (i :: before, run)

/-- Modelled from the spec: attach_attrs_table combined with the extraction
step performed by pandocxnos.extract_attrs (external): when the caption ends
with a braced attribute clause, parse it, overwrite the table's attribute
slot (value[0]), and remove the consumed nodes (plus the separating space)
from the caption; otherwise, or when the clause does not close, leave the
table unchanged.  The stamped section number is untouched. -/
def attachAttrsTable (v : TableValue) : TableValue :=
  match v.captionBlocks with
  | [] => v
  | cap :: restBlocks =>
      match splitAtBrace cap with
      | none => v
      | some (before, run) =>
          let txt := stringifyInlines run
          if txt.toList.head? = some braceOpen ∧ txt.toList.getLast? = some braceClose then
            let parsed := parseAttrsInner (String.mk (txt.toList.drop 1).dropLast)
            let before' :=
              if before.getLast? = some Inline.Space then before.dropLast else before
            { v with
              attrs := { id := parsed.1, classes := parsed.2.1, kvs := parsed.2.2,
                         secno := v.attrs.secno },
              captionBlocks := before' :: restBlocks }
          else v

/-- The attach action applied during the first pass (non-table blocks are
ignored, as in the source where attach_attrs_table fires only on Table
keys). -/
def attachBlock : Block → Block
  | Block.TableB v => Block.TableB (attachAttrsTable v)
  | b => b

/-- Modelled from the spec: the ReferenceResolver replace sub-pass
(pandocxnos.replace_refs_factory, external to this repository).  A citation
whose label matches the label grammar and is found in the reference table is
replaced by literal text, the configured caption name followed by the
target's rendered number or tag; a citation whose label is absent is left
verbatim. -/
def replaceRefsInline (cfg : Config) (ts : Targets) : Inline → Inline
  | Inline.Cite lbl raw =>
      if matchesLabel lbl then
        match lookupTarget ts lbl with
        | some t => Inline.Str (cfg.captionname ++ " " ++ renderNum t.num)
        | none => Inline.Cite lbl raw
      else Inline.Cite lbl raw
  | i => i

/-- The second pass over a block: replace citations in paragraph prose and in
table captions. -/
def replaceRefsBlock (cfg : Config) (ts : Targets) : Block → Block
  | Block.Para xs => Block.Para (xs.map (replaceRefsInline cfg ts))
  | Block.TableB v =>
      Block.TableB { v with captionBlocks := v.captionBlocks.map (List.map (replaceRefsInline cfg ts)) }
  | b => b

/-- One invocation of the filter on a document's block list, starting from the
module-level state `st` (which the source never reinitializes inside main):
the attach action, then the stateful numbering pass, then the reference
replacement pass reading the populated targets tracker. -/
def runTransformFrom (cfg : Config) (fmt : String) (st : FilterState)
    (blocks : List Block) : Except String (FilterState × List Block) := do
  let blocks := blocks.map attachBlock
  let (st, blocks) ← processBlocks cfg fmt st blocks
  pure (st, blocks.map (replaceRefsBlock cfg st.targets))

/-- A filter run in a fresh process: the module state starts at its
interpreter-startup values. -/
def runTransform (cfg : Config) (fmt : String) (blocks : List Block) :
    Except String (List Block) :=
  (runTransformFrom cfg fmt initState blocks).map (fun p => p.2)

/-! Support lemmas about the map operations and the label test. -/

theorem lookupKV_setKV_self (l : List (String × String)) (k x : String) :
    lookupKV (setKV l k x) k = some x := by
  induction l with
  | nil => simp [setKV, lookupKV]
  | cons p rest ih =>
      obtain ⟨k', v'⟩ := p
      by_cases h : k' = k
      · subst h; simp [setKV, lookupKV]
      · simp [setKV, lookupKV, h, ih]

theorem setKV_setKV_self (l : List (String × String)) (k x y : String) :
    setKV (setKV l k x) k y = setKV l k y := by
  induction l with
  | nil => simp [setKV]
  | cons p rest ih =>
      obtain ⟨k', v'⟩ := p
      by_cases h : k' = k
      · subst h; simp [setKV]
      · simp [setKV, h, ih]

theorem lookupTarget_setTarget (ts : Targets) (k : String) (t : Target) (k' : String) :
    lookupTarget (setTarget ts k t) k' =
      if k' = k then some t else lookupTarget ts k' := by
  induction ts with
  | nil =>
      simp only [setTarget, lookupTarget]
      by_cases h : k = k'
      · subst h; simp
      · rw [if_neg h, if_neg (fun hh => h hh.symm)]
  | cons p rest ih =>
      obtain ⟨k0, t0⟩ := p
      by_cases h0 : k0 = k
      · subst h0
        simp only [setTarget, if_pos rfl, lookupTarget]
        by_cases h : k0 = k'
        · subst h; simp
        · rw [if_neg h, if_neg (fun hh => h hh.symm)]
          simp only [lookupTarget, if_neg h]
      · simp only [setTarget, if_neg h0, lookupTarget, ih]
        by_cases h : k0 = k'
        · subst h
          rw [if_pos rfl, if_neg h0, if_pos rfl]
        · by_cases hk : k' = k <;> simp [hk, h]
          exact fun hkk => absurd (hkk.trans hk.symm) h

theorem matchesLabel_ne_empty (s : String) (h : matchesLabel s = true) : s ≠ "" := by
  intro h'
  subst h'
  exact absurd h (by decide)

/-! Characters of a decimal numeral, used to show that quote-stripping leaves
a synthesized section.ordinal tag unchanged. -/

theorem digitChar_isDigit (m : Nat) (h : m < 10) : (Nat.digitChar m).isDigit = true := by
  interval_cases m <;> decide

theorem toDigitsCore_chars (f : Nat) :
    ∀ (n : Nat) (acc : List Char) (c : Char), c ∈ Nat.toDigitsCore 10 f n acc →
      c ∈ acc ∨ c.isDigit = true := by
  induction f with
  | zero =>
      intro n acc c hc
      exact Or.inl hc
  | succ f ih =>
      intro n acc c hc
      unfold Nat.toDigitsCore at hc
      have hd : (Nat.digitChar (n % 10)).isDigit = true :=
        digitChar_isDigit _ (Nat.mod_lt _ (by norm_num))
      by_cases h0 : n / 10 = 0
      · simp only [h0, if_pos rfl] at hc
        rcases List.mem_cons.mp hc with h | h
        · exact Or.inr (h ▸ hd)
        · exact Or.inl h
      · simp only [h0, if_neg h0] at hc
        rcases ih (n / 10) (Nat.digitChar (n % 10) :: acc) c hc with h | h
        · rcases List.mem_cons.mp h with h' | h'
          · exact Or.inr (h' ▸ hd)
          · exact Or.inl h'
        · exact Or.inr h

theorem repr_chars_isDigit (n : Nat) (c : Char) (hc : c ∈ (Nat.repr n).toList) :
    c.isDigit = true := by
  have : c ∈ Nat.toDigitsCore 10 (n + 1) n [] := hc
  rcases toDigitsCore_chars (n + 1) n [] c this with h | h
  · exact absurd h (List.not_mem_nil c)
  · exact h

theorem head_mem_of_head_eq (tg : String) (q : Char)
    (hq : tg.toList.head? = some q) : q ∈ tg.toList := by
  cases hl : tg.toList with
  | nil => rw [hl] at hq; exact absurd hq (by simp)
  | cons a l =>
      rw [hl] at hq
      simp at hq
      rw [hq]
      exact List.mem_cons_self _ _

theorem stripTag_of_no_quotes (tg : String)
    (h : ∀ c ∈ tg.toList, c ≠ dquoteChar ∧ c ≠ squoteChar) :
    stripTag tg = tg := by
  have hdq : ¬ (tg.toList.head? = some dquoteChar ∧ tg.toList.getLast? = some dquoteChar) := by
    rintro ⟨h1, _⟩
    exact (h _ (head_mem_of_head_eq tg _ h1)).1 rfl
  have hsq : ¬ (tg.toList.head? = some squoteChar ∧ tg.toList.getLast? = some squoteChar) := by
    rintro ⟨h1, _⟩
    exact (h _ (head_mem_of_head_eq tg _ h1)).2 rfl
  unfold stripTag
  rw [if_neg hdq, if_neg hsq]

theorem synthTag_chars (a b : Nat) (c : Char)
    (hc : c ∈ (toString a ++ "." ++ toString b).toList) :
    c ≠ dquoteChar ∧ c ≠ squoteChar := by
  have hsplit : (toString a ++ "." ++ toString b).toList
      = (Nat.repr a).toList ++ ['.'] ++ (Nat.repr b).toList := by
    simp [String.toList, String.data_append]
    rfl
  rw [hsplit] at hc
  have hdig : c.isDigit = true ∨ c = '.' := by
    rcases List.mem_append.mp hc with h | h
    · rcases List.mem_append.mp h with h' | h'
      · exact Or.inl (repr_chars_isDigit a c h')
      · simp at h'
        exact Or.inr h'
    · exact Or.inl (repr_chars_isDigit b c h)
  rcases hdig with h | h
  · constructor <;> (intro h'; subst h'; exact absurd h (by decide))
  · subst h; exact ⟨by decide, by decide⟩

theorem stripTag_synth (a b : Nat) :
    stripTag (toString a ++ "." ++ toString b) = toString a ++ "." ++ toString b :=
  stripTag_of_no_quotes _ (synthTag_chars a b)

theorem synthTag_ne_empty (a b : Nat) : toString a ++ "." ++ toString b ≠ "" := by
  intro h
  have : (toString a ++ "." ++ toString b).toList = [] := by rw [h]; rfl
  have hsplit : (toString a ++ "." ++ toString b).toList
      = (Nat.repr a).toList ++ ['.'] ++ (Nat.repr b).toList := by
    simp [String.toList, String.data_append]
    rfl
  rw [hsplit] at this
  simp at this

/-! Characterizations of one _process_table step. -/

/-- The counter value right after an untagged table is processed: the section
check may reset the counter, and then it increments. -/
def untaggedN (cfg : Config) (st : FilterState) (s : Nat) : Nat :=
  if some s ≠ st.cursec then (if cfg.numbersections then 0 else st.Ntargets) + 1
  else st.Ntargets + 1

/-- The target stored for an untagged table: a synthesized section.ordinal tag
for the html and docx family under section numbering, a bare integer
otherwise. -/
def untaggedTarget (cfg : Config) (fmt : String) (st : FilterState) (s : Nat) : TargetNum :=
  if cfg.numbersections ∧ isHtmlOrDocx fmt = true then
    TargetNum.tag (toString (s + cfg.secoffset) ++ "." ++ toString (untaggedN cfg st s))
  else TargetNum.num (untaggedN cfg st s)

/-- The key-value list of the attrs record after an untagged table is
processed (the synthesized tag is written into it in the synthesizing
case). -/
def untaggedKvs (cfg : Config) (fmt : String) (st : FilterState) (a : Attrs) : List (String × String) :=
  if cfg.numbersections ∧ isHtmlOrDocx fmt = true then
    setKV a.kvs "tag" (toString (a.secno + cfg.secoffset) ++ "." ++ toString (untaggedN cfg st a.secno))
  else a.kvs

theorem processTable_untagged (cfg : Config) (fmt : String) (st : FilterState) (v : TableValue)
    (hm : matchesLabel v.attrs.id = true) (ha : ¬ v.attrs.id = "tbl:")
    (ht : lookupKV v.attrs.kvs "tag" = none) :
    processTable cfg fmt st v = Except.ok
      ({ st with cursec := some v.attrs.secno,
                 Ntargets := untaggedN cfg st v.attrs.secno,
                 targets := setTarget st.targets v.attrs.id
                   { num := untaggedTarget cfg fmt st v.attrs.secno,
                     secno := some v.attrs.secno,
                     has_duplicate := containsTarget st.targets v.attrs.id } },
       { is_unnumbered := false, is_unreferenceable := false,
         is_tagged := decide (cfg.numbersections ∧ isHtmlOrDocx fmt = true),
         attrs := { v.attrs with kvs := untaggedKvs cfg fmt st v.attrs },
         caption := captionOf v }) := by
  by_cases hs : some v.attrs.secno ≠ st.cursec
  · by_cases hsyn : cfg.numbersections ∧ isHtmlOrDocx fmt = true <;>
      simp [processTable, hm, ha, ht, hs, hsyn, untaggedN, untaggedTarget, untaggedKvs,
            lookupKV_setKV_self, synthTag_ne_empty, stripTag_synth, setKV_setKV_self]
  · have hc : st.cursec = some v.attrs.secno := (not_ne_iff.mp hs).symm
    by_cases hsyn : cfg.numbersections ∧ isHtmlOrDocx fmt = true <;>
      simp [processTable, hm, ha, ht, hs, hsyn, hc, untaggedN, untaggedTarget, untaggedKvs,
            lookupKV_setKV_self, synthTag_ne_empty, stripTag_synth, setKV_setKV_self]

/-- The counter value right after a tagged table is processed: the section
check may reset it, and no increment happens. -/
def taggedN (cfg : Config) (st : FilterState) (s : Nat) : Nat :=
  if some s ≠ st.cursec then (if cfg.numbersections then 0 else st.Ntargets)
  else st.Ntargets

theorem processTable_tagged (cfg : Config) (fmt : String) (st : FilterState) (v : TableValue)
    (tg : String)
    (hm : matchesLabel v.attrs.id = true) (ha : ¬ v.attrs.id = "tbl:")
    (ht : lookupKV v.attrs.kvs "tag" = some tg) (h0 : ¬ tg = "") :
    processTable cfg fmt st v = Except.ok
      ({ st with cursec := some v.attrs.secno,
                 Ntargets := taggedN cfg st v.attrs.secno,
                 targets := setTarget st.targets v.attrs.id
                   { num := TargetNum.tag (stripTag tg),
                     secno := some v.attrs.secno,
                     has_duplicate := containsTarget st.targets v.attrs.id } },
       { is_unnumbered := false, is_unreferenceable := false, is_tagged := true,
         attrs := { v.attrs with kvs := setKV v.attrs.kvs "tag" (stripTag tg) },
         caption := captionOf v }) := by
  by_cases hs : some v.attrs.secno ≠ st.cursec
  · simp [processTable, hm, ha, ht, h0, hs, taggedN]
  · have hc : st.cursec = some v.attrs.secno := (not_ne_iff.mp hs).symm
    simp [processTable, hm, ha, ht, h0, hs, hc, taggedN]

theorem processTable_anon (cfg : Config) (fmt : String) (st : FilterState) (v : TableValue)
    (ha : v.attrs.id = "tbl:") (ht : lookupKV v.attrs.kvs "tag" = none) :
    processTable cfg fmt st v = Except.ok
      ({ st with cursec := some v.attrs.secno,
                 Ntargets := untaggedN cfg st v.attrs.secno,
                 targets := setTarget st.targets ("tbl:" ++ uuidStr st.uuidCount)
                   { num := untaggedTarget cfg fmt st v.attrs.secno,
                     secno := some v.attrs.secno,
                     has_duplicate := containsTarget st.targets ("tbl:" ++ uuidStr st.uuidCount) },
                 uuidCount := st.uuidCount + 1 },
       { is_unnumbered := false, is_unreferenceable := true,
         is_tagged := decide (cfg.numbersections ∧ isHtmlOrDocx fmt = true),
         attrs := { v.attrs with
                    id := "tbl:" ++ uuidStr st.uuidCount,
                    kvs := untaggedKvs cfg fmt st v.attrs },
         caption := captionOf v }) := by
  have hm : matchesLabel "tbl:" = true := by decide
  by_cases hs : some v.attrs.secno ≠ st.cursec
  · by_cases hsyn : cfg.numbersections ∧ isHtmlOrDocx fmt = true <;>
      simp [processTable, hm, ha, ht, hs, hsyn, untaggedN, untaggedTarget, untaggedKvs,
            lookupKV_setKV_self, synthTag_ne_empty, stripTag_synth, setKV_setKV_self]
  · have hc : st.cursec = some v.attrs.secno := (not_ne_iff.mp hs).symm
    by_cases hsyn : cfg.numbersections ∧ isHtmlOrDocx fmt = true <;>
      simp [processTable, hm, ha, ht, hs, hsyn, hc, untaggedN, untaggedTarget, untaggedKvs,
            lookupKV_setKV_self, synthTag_ne_empty, stripTag_synth, setKV_setKV_self]

theorem lookupTarget_setTarget_self (ts : Targets) (k : String) (t : Target) :
    lookupTarget (setTarget ts k t) k = some t := by
  rw [lookupTarget_setTarget, if_pos rfl]

theorem untaggedN_not_ns (cfg : Config) (st : FilterState) (s : Nat)
    (hns : cfg.numbersections = false) : untaggedN cfg st s = st.Ntargets + 1 := by
  unfold untaggedN
  rw [hns]
  split <;> rfl

theorem not_synth_of_not_ns (cfg : Config) (fmt : String)
    (hns : cfg.numbersections = false) :
    ¬ (cfg.numbersections = true ∧ isHtmlOrDocx fmt = true) := by
  rintro ⟨h1, _⟩
  rw [hns] at h1
  exact Bool.noConfusion h1

theorem untaggedTarget_not_ns (cfg : Config) (fmt : String) (st : FilterState) (s : Nat)
    (hns : cfg.numbersections = false) :
    untaggedTarget cfg fmt st s = TargetNum.num (st.Ntargets + 1) := by
  unfold untaggedTarget
  rw [if_neg (not_synth_of_not_ns cfg fmt hns), untaggedN_not_ns cfg st s hns]

theorem untaggedKvs_not_ns (cfg : Config) (fmt : String) (st : FilterState) (a : Attrs)
    (hns : cfg.numbersections = false) :
    untaggedKvs cfg fmt st a = a.kvs := by
  unfold untaggedKvs
  rw [if_neg (not_synth_of_not_ns cfg fmt hns)]

/-- The generalized invariant of the first pass over a run of well-labeled,
untagged, non-anonymous tables with section numbering off: starting from any
state, the pass succeeds, the counter advances by the number of tables, labels
not among the run are untouched, and (when the run's labels are distinct) the
i-th table's label maps to the integer start + i + 1. -/
theorem processTableSeq_numbers (cfg : Config) (fmt : String) (tbls : List TableValue)
    (hns : cfg.numbersections = false)
    (h : ∀ v ∈ tbls, matchesLabel v.attrs.id = true ∧ ¬ v.attrs.id = "tbl:" ∧
          lookupKV v.attrs.kvs "tag" = none) :
    ∀ st : FilterState,
      ∃ st', processTableSeq cfg fmt st tbls = Except.ok st' ∧
        st'.Ntargets = st.Ntargets + tbls.length ∧
        (∀ k, (∀ v ∈ tbls, ¬ v.attrs.id = k) →
          lookupTarget st'.targets k = lookupTarget st.targets k) ∧
        ((tbls.map (fun v => v.attrs.id)).Nodup →
          ∀ i, ∀ hi : i < tbls.length,
            (lookupTarget st'.targets (tbls.get ⟨i, hi⟩).attrs.id).map Target.num
              = some (TargetNum.num (st.Ntargets + i + 1))) := by
  induction tbls with
  | nil =>
      intro st
      exact ⟨st, rfl, rfl, fun _ _ => rfl, fun _ i hi => absurd hi (by simp)⟩
  | cons v vs ih =>
      intro st
      obtain ⟨hm, ha, ht⟩ := h v (List.mem_cons_self v vs)
      have hstep := processTable_untagged cfg fmt st v hm ha ht
      obtain ⟨st', h1, h2, h3, h4⟩ :=
        ih (fun u hu => h u (List.mem_cons_of_mem v hu))
          { st with cursec := some v.attrs.secno,
                    Ntargets := untaggedN cfg st v.attrs.secno,
                    targets := setTarget st.targets v.attrs.id
                      { num := untaggedTarget cfg fmt st v.attrs.secno,
                        secno := some v.attrs.secno,
                        has_duplicate := containsTarget st.targets v.attrs.id } }
      refine ⟨st', ?_, ?_, ?_, ?_⟩
      · simp only [processTableSeq, hstep, h1]
      · rw [h2]
        simp [untaggedN_not_ns cfg st v.attrs.secno hns, List.length_cons]
        omega
      · intro k hk
        rw [h3 k (fun u hu => hk u (List.mem_cons_of_mem v hu))]
        simp only [lookupTarget_setTarget]
        rw [if_neg (fun hh => hk v (List.mem_cons_self v vs) hh.symm)]
      · intro hnd i hi
        have hnd' : (∀ x ∈ vs, ¬ x.attrs.id = v.attrs.id) ∧
            (List.map (fun w => w.attrs.id) vs).Nodup := by simpa using hnd
        match i with
        | 0 =>
            have hfr : ∀ u ∈ vs, ¬ u.attrs.id = v.attrs.id := hnd'.1
            rw [List.get]
            rw [h3 v.attrs.id hfr, lookupTarget_setTarget_self]
            simp [untaggedTarget_not_ns cfg fmt st v.attrs.secno hns]
        | Nat.succ j =>
            have hj : j < vs.length := by simpa using hi
            have := h4 hnd'.2 j hj
            rw [List.get]
            simp only [List.get] at this ⊢
            rw [this]
            have : untaggedN cfg st v.attrs.secno = st.Ntargets + 1 :=
              untaggedN_not_ns cfg st v.attrs.secno hns
            simp [this]
            omega

/-- C1: for a document whose N tables all carry label-conforming ids (none
anonymous) and no tag key, with section numbering disabled, the first pass
succeeds and stores the integer targets 1..N in the reference table in
document order, regardless of the tables' stamped section numbers. -/
theorem C1_first_pass_numbers_in_order (cfg : Config) (fmt : String)
    (tbls : List TableValue)
    (hns : cfg.numbersections = false)
    (h : ∀ v ∈ tbls, matchesLabel v.attrs.id = true ∧ ¬ v.attrs.id = "tbl:" ∧
          lookupKV v.attrs.kvs "tag" = none)
    (hnodup : (tbls.map (fun v => v.attrs.id)).Nodup) :
    ∃ st', processTableSeq cfg fmt initState tbls = Except.ok st' ∧
      ∀ i, ∀ hi : i < tbls.length,
        (lookupTarget st'.targets (tbls.get ⟨i, hi⟩).attrs.id).map Target.num
          = some (TargetNum.num (i + 1)) := by
  obtain ⟨st', h1, _, _, h4⟩ := processTableSeq_numbers cfg fmt tbls hns h initState
  refine ⟨st', h1, fun i hi => ?_⟩
  have := h4 hnodup i hi
  simpa [initState] using this

/-- Witness for C1 at a concrete two-table document whose tables sit in
different sections. -/
theorem C1_witness :
    ∃ st', processTableSeq ⟨"Table", "colon", false, 0⟩ "markdown" initState
        [⟨⟨"tbl:a", [], [], 0⟩, [[Inline.Str "A"]], 0⟩,
         ⟨⟨"tbl:b", [], [], 5⟩, [[Inline.Str "B"]], 0⟩] = Except.ok st' ∧
      ∀ i, ∀ hi : i <
        ([⟨⟨"tbl:a", [], [], 0⟩, [[Inline.Str "A"]], 0⟩,
          ⟨⟨"tbl:b", [], [], 5⟩, [[Inline.Str "B"]], 0⟩] : List TableValue).length,
        (lookupTarget st'.targets
            (([⟨⟨"tbl:a", [], [], 0⟩, [[Inline.Str "A"]], 0⟩,
               ⟨⟨"tbl:b", [], [], 5⟩, [[Inline.Str "B"]], 0⟩] : List TableValue).get
              ⟨i, hi⟩).attrs.id).map Target.num
          = some (TargetNum.num (i + 1)) :=
  C1_first_pass_numbers_in_order ⟨"Table", "colon", false, 0⟩ "markdown" _
    rfl (by decide) (by decide)

/-- C2: with section numbering enabled, an untagged well-labeled table
restarts the numbering at 1 when its stamped section differs from the current
section and continues the count inside a section; and for the html, epub and
docx output family the stored target is the synthesized string
section+offset "." ordinal instead of a bare integer. -/
theorem C2_section_reset_and_synthesized_tag (cfg : Config) (fmt : String)
    (st : FilterState) (v : TableValue)
    (hns : cfg.numbersections = true)
    (hm : matchesLabel v.attrs.id = true) (ha : ¬ v.attrs.id = "tbl:")
    (ht : lookupKV v.attrs.kvs "tag" = none) :
    ∃ st' info, processTable cfg fmt st v = Except.ok (st', info) ∧
      (¬ st.cursec = some v.attrs.secno → st'.Ntargets = 1) ∧
      (st.cursec = some v.attrs.secno → st'.Ntargets = st.Ntargets + 1) ∧
      (isHtmlOrDocx fmt = true →
        lookupTarget st'.targets v.attrs.id = some
          { num := TargetNum.tag
              (toString (v.attrs.secno + cfg.secoffset) ++ "." ++ toString st'.Ntargets),
            secno := some v.attrs.secno,
            has_duplicate := containsTarget st.targets v.attrs.id }) := by
  refine ⟨_, _, processTable_untagged cfg fmt st v hm ha ht, ?_, ?_, ?_⟩
  · intro hne
    simp only [untaggedN]
    rw [if_pos (fun hh => hne hh.symm), hns]
    simp
  · intro heq
    simp only [untaggedN]
    rw [if_neg (by rw [heq]; exact fun hh => hh rfl)]
  · intro hfmt
    rw [lookupTarget_setTarget_self]
    simp only [untaggedTarget, if_pos (And.intro hns hfmt)]

/-- Witness for C2: the second numbered table of section 3, offset 0, html
output, receives the synthesized target "3.2". -/
theorem C2_witness :
    ∃ st' info,
      processTable ⟨"Table", "colon", true, 0⟩ "html"
        { cursec := some 3, Ntargets := 1, targets := [],
          has_unnumbered_tables := false, has_tagged_tables := false, uuidCount := 0 }
        ⟨⟨"tbl:w", [], [], 3⟩, [[Inline.Str "W"]], 0⟩ = Except.ok (st', info) ∧
      (¬ (some 3 : Option Nat) = some 3 → st'.Ntargets = 1) ∧
      ((some 3 : Option Nat) = some 3 → st'.Ntargets = 1 + 1) ∧
      (isHtmlOrDocx "html" = true →
        lookupTarget st'.targets "tbl:w" = some
          { num := TargetNum.tag (toString (3 + 0) ++ "." ++ toString st'.Ntargets),
            secno := some 3, has_duplicate := containsTarget [] "tbl:w" }) :=
  C2_section_reset_and_synthesized_tag ⟨"Table", "colon", true, 0⟩ "html" _ _
    rfl (by decide) (by decide) rfl

/-- C3: a table carrying an explicit non-empty tag never increments the
counter; its stored target is the quote-stripped tag string; and an untagged
table in the same section processed right after it receives exactly the same
target entry it would have received had the tagged table been absent. -/
theorem C3_tagged_table_frame (cfg : Config) (fmt : String) (st : FilterState)
    (t u : TableValue) (tg : String)
    (hmt : matchesLabel t.attrs.id = true) (hat : ¬ t.attrs.id = "tbl:")
    (htt : lookupKV t.attrs.kvs "tag" = some tg) (h0 : ¬ tg = "")
    (hmu : matchesLabel u.attrs.id = true) (hau : ¬ u.attrs.id = "tbl:")
    (htu : lookupKV u.attrs.kvs "tag" = none)
    (hsec : u.attrs.secno = t.attrs.secno)
    (hne : ¬ u.attrs.id = t.attrs.id) :
    ∃ st₁ i₁, processTable cfg fmt st t = Except.ok (st₁, i₁) ∧
      st₁.Ntargets ≤ st.Ntargets ∧
      lookupTarget st₁.targets t.attrs.id = some
        { num := TargetNum.tag (stripTag tg), secno := some t.attrs.secno,
          has_duplicate := containsTarget st.targets t.attrs.id } ∧
      (∀ st₂ i₂ st₂' i₂',
        processTable cfg fmt st₁ u = Except.ok (st₂, i₂) →
        processTable cfg fmt st u = Except.ok (st₂', i₂') →
        lookupTarget st₂.targets u.attrs.id = lookupTarget st₂'.targets u.attrs.id) := by
  refine ⟨_, _, processTable_tagged cfg fmt st t tg hmt hat htt h0, ?_, ?_, ?_⟩
  · simp only [taggedN]
    split
    · split <;> omega
    · omega
  · exact lookupTarget_setTarget_self _ _ _
  · intro st₂ i₂ st₂' i₂' h₂ h₂'
    rw [processTable_untagged cfg fmt _ u hmu hau htu] at h₂
    rw [processTable_untagged cfg fmt st u hmu hau htu] at h₂'
    obtain ⟨hst₂, _⟩ := Prod.mk.injEq .. ▸ Except.ok.inj h₂
    obtain ⟨hst₂', _⟩ := Prod.mk.injEq .. ▸ Except.ok.inj h₂'
    subst hst₂ hst₂'
    have hN : untaggedN cfg
        { st with cursec := some t.attrs.secno,
                  Ntargets := taggedN cfg st t.attrs.secno,
                  targets := setTarget st.targets t.attrs.id
                    { num := TargetNum.tag (stripTag tg), secno := some t.attrs.secno,
                      has_duplicate := containsTarget st.targets t.attrs.id } }
        u.attrs.secno = untaggedN cfg st u.attrs.secno := by
      simp only [untaggedN, taggedN, hsec]
      rw [if_neg (fun hh => hh rfl)]
      by_cases hcs : some t.attrs.secno ≠ st.cursec
      · rw [if_pos hcs, if_pos hcs]
      · rw [if_neg hcs, if_neg hcs]
    have hT : untaggedTarget cfg fmt
        { st with cursec := some t.attrs.secno,
                  Ntargets := taggedN cfg st t.attrs.secno,
                  targets := setTarget st.targets t.attrs.id
                    { num := TargetNum.tag (stripTag tg), secno := some t.attrs.secno,
                      has_duplicate := containsTarget st.targets t.attrs.id } }
        u.attrs.secno = untaggedTarget cfg fmt st u.attrs.secno := by
      simp only [untaggedTarget, hN]
    have hC : containsTarget
        (setTarget st.targets t.attrs.id
          { num := TargetNum.tag (stripTag tg), secno := some t.attrs.secno,
            has_duplicate := containsTarget st.targets t.attrs.id })
        u.attrs.id = containsTarget st.targets u.attrs.id := by
      simp only [containsTarget, lookupTarget_setTarget]
      rw [if_neg hne]
    rw [lookupTarget_setTarget_self, lookupTarget_setTarget_self, hT, hC]

/-- Witness for C3 at a concrete tagged table (tag "B-1" in double quotes)
followed by an untagged table with a distinct label in the same section. -/
theorem C3_witness :
    ∃ st₁ i₁,
      processTable ⟨"Table", "colon", false, 0⟩ "markdown" initState
        ⟨⟨"tbl:tagged", [], [("tag", "\"B-1\"")], 0⟩, [[Inline.Str "T"]], 0⟩ =
        Except.ok (st₁, i₁) ∧
      st₁.Ntargets ≤ initState.Ntargets ∧
      lookupTarget st₁.targets "tbl:tagged" = some
        { num := TargetNum.tag (stripTag "\"B-1\""), secno := some 0,
          has_duplicate := containsTarget initState.targets "tbl:tagged" } ∧
      (∀ st₂ i₂ st₂' i₂',
        processTable ⟨"Table", "colon", false, 0⟩ "markdown" st₁
          ⟨⟨"tbl:other", [], [], 0⟩, [[Inline.Str "U"]], 0⟩ = Except.ok (st₂, i₂) →
        processTable ⟨"Table", "colon", false, 0⟩ "markdown" initState
          ⟨⟨"tbl:other", [], [], 0⟩, [[Inline.Str "U"]], 0⟩ = Except.ok (st₂', i₂') →
        lookupTarget st₂.targets "tbl:other" = lookupTarget st₂'.targets "tbl:other") :=
  C3_tagged_table_frame ⟨"Table", "colon", false, 0⟩ "markdown" initState _ _ "\"B-1\""
    (by decide) (by decide) rfl (by decide) (by decide) (by decide) rfl rfl (by decide)

/-- C4: two well-labeled untagged tables carrying the same label are both
processed without an exception; after the first the entry's duplicate flag is
false (single occurrence so far), and after the second the same label holds
the later table's target with the duplicate flag set. -/
theorem C4_duplicate_label_last_writer_wins (cfg : Config) (fmt : String)
    (st : FilterState) (t u : TableValue)
    (hns : cfg.numbersections = false)
    (hm : matchesLabel t.attrs.id = true) (ha : ¬ t.attrs.id = "tbl:")
    (htt : lookupKV t.attrs.kvs "tag" = none) (htu : lookupKV u.attrs.kvs "tag" = none)
    (heq : u.attrs.id = t.attrs.id)
    (hfresh : containsTarget st.targets t.attrs.id = false) :
    ∃ st₁ i₁ st₂ i₂,
      processTable cfg fmt st t = Except.ok (st₁, i₁) ∧
      processTable cfg fmt st₁ u = Except.ok (st₂, i₂) ∧
      lookupTarget st₁.targets t.attrs.id = some
        { num := TargetNum.num (st.Ntargets + 1), secno := some t.attrs.secno,
          has_duplicate := false } ∧
      lookupTarget st₂.targets t.attrs.id = some
        { num := TargetNum.num (st.Ntargets + 2), secno := some u.attrs.secno,
          has_duplicate := true } := by
  have hmu : matchesLabel u.attrs.id = true := by rw [heq]; exact hm
  have hau : ¬ u.attrs.id = "tbl:" := by rw [heq]; exact ha
  refine ⟨_, _, _, _, processTable_untagged cfg fmt st t hm ha htt,
    processTable_untagged cfg fmt _ u hmu hau htu, ?_, ?_⟩
  · rw [lookupTarget_setTarget_self]
    rw [untaggedTarget_not_ns cfg fmt st t.attrs.secno hns, hfresh]
  · rw [heq, lookupTarget_setTarget_self]
    have hnum : untaggedTarget cfg fmt
        { st with cursec := some t.attrs.secno,
                  Ntargets := untaggedN cfg st t.attrs.secno,
                  targets := setTarget st.targets t.attrs.id
                    { num := untaggedTarget cfg fmt st t.attrs.secno,
                      secno := some t.attrs.secno,
                      has_duplicate := containsTarget st.targets t.attrs.id } }
        u.attrs.secno = TargetNum.num (st.Ntargets + 2) := by
      rw [untaggedTarget_not_ns _ _ _ _ hns]
      show TargetNum.num (untaggedN cfg st t.attrs.secno + 1) = _
      rw [untaggedN_not_ns _ _ _ hns]
    have hdup : containsTarget
        (setTarget st.targets t.attrs.id
          { num := untaggedTarget cfg fmt st t.attrs.secno, secno := some t.attrs.secno,
            has_duplicate := containsTarget st.targets t.attrs.id })
        t.attrs.id = true := by
      simp [containsTarget, lookupTarget_setTarget_self]
    simp [hnum, hdup]

/-- Witness for C4: the label tbl:dup used twice starting from the fresh
state. -/
theorem C4_witness :
    ∃ st₁ i₁ st₂ i₂,
      processTable ⟨"Table", "colon", false, 0⟩ "markdown" initState
        ⟨⟨"tbl:dup", [], [], 0⟩, [[Inline.Str "T"]], 0⟩ = Except.ok (st₁, i₁) ∧
      processTable ⟨"Table", "colon", false, 0⟩ "markdown" st₁
        ⟨⟨"tbl:dup", [], [], 1⟩, [[Inline.Str "U"]], 0⟩ = Except.ok (st₂, i₂) ∧
      lookupTarget st₁.targets "tbl:dup" = some
        { num := TargetNum.num (initState.Ntargets + 1), secno := some 0,
          has_duplicate := false } ∧
      lookupTarget st₂.targets "tbl:dup" = some
        { num := TargetNum.num (initState.Ntargets + 2), secno := some 1,
          has_duplicate := true } :=
  C4_duplicate_label_last_writer_wins ⟨"Table", "colon", false, 0⟩ "markdown" initState _ _
    rfl (by decide) (by decide) rfl rfl rfl rfl

/-- C7: a table whose id is exactly the bare prefix tbl: gets a fresh
synthetic id (from an injective per-run generator), is marked unreferenceable
but not unnumbered, consumes the integer counter, and its target is stored in
the reference table under the synthetic id; an untagged well-labeled table
processed right after it receives the following integer. -/
theorem C7_anonymous_label (cfg : Config) (fmt : String) (st : FilterState)
    (v u : TableValue)
    (hns : cfg.numbersections = false)
    (ha : v.attrs.id = "tbl:") (ht : lookupKV v.attrs.kvs "tag" = none)
    (hmu : matchesLabel u.attrs.id = true) (hau : ¬ u.attrs.id = "tbl:")
    (htu : lookupKV u.attrs.kvs "tag" = none) :
    ∃ st' info, processTable cfg fmt st v = Except.ok (st', info) ∧
      info.is_unreferenceable = true ∧
      info.is_unnumbered = false ∧
      info.attrs.id = "tbl:" ++ uuidStr st.uuidCount ∧
      st'.uuidCount = st.uuidCount + 1 ∧
      st'.Ntargets = st.Ntargets + 1 ∧
      lookupTarget st'.targets ("tbl:" ++ uuidStr st.uuidCount) = some
        { num := TargetNum.num (st.Ntargets + 1), secno := some v.attrs.secno,
          has_duplicate := containsTarget st.targets ("tbl:" ++ uuidStr st.uuidCount) } ∧
      (∀ m n : Nat, uuidStr m = uuidStr n → m = n) ∧
      (∀ st₂ i₂, processTable cfg fmt st' u = Except.ok (st₂, i₂) →
        (lookupTarget st₂.targets u.attrs.id).map Target.num
          = some (TargetNum.num (st.Ntargets + 2))) := by
  refine ⟨_, _, processTable_anon cfg fmt st v ha ht, rfl, rfl, rfl, rfl, ?_, ?_, ?_, ?_⟩
  · exact untaggedN_not_ns cfg st v.attrs.secno hns
  · rw [lookupTarget_setTarget_self,
      untaggedTarget_not_ns cfg fmt st v.attrs.secno hns]
  · intro m n hmn
    have hlen := congrArg (fun s => s.data.length) hmn
    simp only [uuidStr, List.length_replicate] at hlen
    omega
  · intro st₂ i₂ h₂
    rw [processTable_untagged cfg fmt _ u hmu hau htu] at h₂
    obtain ⟨hst₂, _⟩ := Prod.mk.injEq .. ▸ Except.ok.inj h₂
    subst hst₂
    rw [lookupTarget_setTarget_self]
    rw [untaggedTarget_not_ns _ _ _ _ hns]
    show some (TargetNum.num (untaggedN cfg st v.attrs.secno + 1)) = _
    rw [untaggedN_not_ns _ _ _ hns]

/-- Witness for C7: the anonymous table followed by a labeled table, from the
fresh state. -/
theorem C7_witness :
    ∃ st' info,
      processTable ⟨"Table", "colon", false, 0⟩ "markdown" initState
        ⟨⟨"tbl:", [], [], 0⟩, [[Inline.Str "Anon"]], 0⟩ = Except.ok (st', info) ∧
      info.is_unreferenceable = true ∧
      info.is_unnumbered = false ∧
      info.attrs.id = "tbl:" ++ uuidStr initState.uuidCount ∧
      st'.uuidCount = initState.uuidCount + 1 ∧
      st'.Ntargets = initState.Ntargets + 1 ∧
      lookupTarget st'.targets ("tbl:" ++ uuidStr initState.uuidCount) = some
        { num := TargetNum.num (initState.Ntargets + 1), secno := some 0,
          has_duplicate := containsTarget initState.targets
            ("tbl:" ++ uuidStr initState.uuidCount) } ∧
      (∀ m n : Nat, uuidStr m = uuidStr n → m = n) ∧
      (∀ st₂ i₂,
        processTable ⟨"Table", "colon", false, 0⟩ "markdown" st'
          ⟨⟨"tbl:next", [], [], 0⟩, [[Inline.Str "Next"]], 0⟩ = Except.ok (st₂, i₂) →
        (lookupTarget st₂.targets "tbl:next").map Target.num
          = some (TargetNum.num (initState.Ntargets + 2))) :=
  C7_anonymous_label ⟨"Table", "colon", false, 0⟩ "markdown" initState _ _
    rfl rfl rfl (by decide) (by decide) rfl

/-- A concrete table whose id has a non-label prefix. -/
def mislabeledTable : TableValue := ⟨⟨"fig:1", [], [], 0⟩, [[Inline.Str "A"]], 0⟩

/-- C5 evidence: _process_table demotes a mislabeled table (unnumbered and
unreferenceable, no reference-table entry is stored), but process_tables then
calls _adjust_caption anyway because the id is non-empty, and the unguarded
subscription targets[attrs.id] raises KeyError, which escapes the
table-processing action instead of being handled as a recoverable
condition. -/
theorem C5_mislabeled_table_raises_KeyError :
    (∃ info, processTable ⟨"Table", "colon", false, 0⟩ "markdown" initState mislabeledTable
        = Except.ok ({ initState with has_unnumbered_tables := true }, info) ∧
        info.is_unnumbered = true ∧ info.is_unreferenceable = true) ∧
    processTablesBlock ⟨"Table", "colon", false, 0⟩ "markdown" initState
      (Block.TableB mislabeledTable) = Except.error "KeyError" :=
  ⟨⟨_, rfl, rfl, rfl⟩, rfl⟩

theorem adjustCaption_empty_caption (cfg : Config) (fmt : String) (st : FilterState)
    (info : TableInfo) (v : TableValue) (t : Target) (sep : String)
    (hcap : v.captionBlocks = [])
    (hunref : info.is_unreferenceable = false)
    (hlk : lookupTarget st.targets info.attrs.id = some t)
    (hsep : sepGlyph cfg.separator = some sep) :
    adjustCaption cfg fmt st info v = Except.error "IndexError" := by
  simp only [adjustCaption, hlk]
  by_cases hl : isLatexFmt fmt
  · simp [hl, hunref, appendCaptionContent, hcap, Bind.bind, Except.bind]
  · cases hn : t.num with
    | num n =>
        by_cases hh : isHtmlFmt fmt <;>
          simp [hl, hh, hsep, hn, setCaptionContent, hcap, Bind.bind, Except.bind]
    | tag s =>
        by_cases hh : isHtmlFmt fmt <;>
          by_cases hd : s.toList.head? = some '$' ∧ s.toList.getLast? = some '$' <;>
            simp [hl, hh, hd, hsep, hn, setCaptionContent, hcap, Bind.bind, Except.bind]

/-- C10: for the pandoc >= 2.10 schema, a table whose id is non-empty, matches
the label grammar and is not the bare anonymous prefix, but whose caption
block list is empty, makes the caption-rewriting step subscript the empty
list: the table-processing action aborts with an uncaught IndexError for every
output format (given a valid configured separator and no empty tag value). -/
theorem C10_empty_caption_IndexError (cfg : Config) (fmt : String) (st : FilterState)
    (v : TableValue) (sep : String)
    (hm : matchesLabel v.attrs.id = true) (ha : ¬ v.attrs.id = "tbl:")
    (hcap : v.captionBlocks = [])
    (htag : ∀ tg, lookupKV v.attrs.kvs "tag" = some tg → ¬ tg = "")
    (hsep : sepGlyph cfg.separator = some sep) :
    processTablesBlock cfg fmt st (Block.TableB v) = Except.error "IndexError" := by
  have hid : ¬ v.attrs.id = "" := matchesLabel_ne_empty v.attrs.id hm
  cases hk : lookupKV v.attrs.kvs "tag" with
  | none =>
      have hstep := processTable_untagged cfg fmt st v hm ha hk
      have hadj := adjustCaption_empty_caption cfg fmt
        { st with cursec := some v.attrs.secno,
                  Ntargets := untaggedN cfg st v.attrs.secno,
                  targets := setTarget st.targets v.attrs.id
                    { num := untaggedTarget cfg fmt st v.attrs.secno,
                      secno := some v.attrs.secno,
                      has_duplicate := containsTarget st.targets v.attrs.id } }
        { is_unnumbered := false, is_unreferenceable := false,
          is_tagged := decide (cfg.numbersections ∧ isHtmlOrDocx fmt = true),
          attrs := { v.attrs with kvs := untaggedKvs cfg fmt st v.attrs },
          caption := captionOf v }
        v _ sep hcap rfl (lookupTarget_setTarget_self _ _ _) hsep
      simp only [processTablesBlock, hstep, Bind.bind, Except.bind]
      rw [if_pos hid, hadj]
  | some tg =>
      have h0 := htag tg hk
      have hstep := processTable_tagged cfg fmt st v tg hm ha hk h0
      have hadj := adjustCaption_empty_caption cfg fmt
        { st with cursec := some v.attrs.secno,
                  Ntargets := taggedN cfg st v.attrs.secno,
                  targets := setTarget st.targets v.attrs.id
                    { num := TargetNum.tag (stripTag tg),
                      secno := some v.attrs.secno,
                      has_duplicate := containsTarget st.targets v.attrs.id } }
        { is_unnumbered := false, is_unreferenceable := false, is_tagged := true,
          attrs := { v.attrs with kvs := setKV v.attrs.kvs "tag" (stripTag tg) },
          caption := captionOf v }
        v _ sep hcap rfl (lookupTarget_setTarget_self _ _ _) hsep
      simp only [processTablesBlock, hstep, Bind.bind, Except.bind]
      rw [if_pos hid, hadj]

/-- Witness for C10: a labeled table with an empty caption block list, html
output. -/
theorem C10_witness :
    processTablesBlock ⟨"Table", "colon", false, 0⟩ "html" initState
      (Block.TableB ⟨⟨"tbl:empty", [], [], 0⟩, [], 0⟩) = Except.error "IndexError" :=
  C10_empty_caption_IndexError ⟨"Table", "colon", false, 0⟩ "html" initState
    ⟨⟨"tbl:empty", [], [], 0⟩, [], 0⟩ ":" (by decide) (by decide) rfl
    (fun tg h => by simp [lookupKV] at h) rfl

/-- The three tables of the concrete C6 scenario: the attribute clauses sit as
trailing text in the captions, as the author writes them. -/
def c6table1 : TableValue :=
  ⟨⟨"", [], [], 0⟩, [[Inline.Str "First", Inline.Space, Inline.Str "\x7b#tbl:results\x7d"]], 0⟩

def c6table2 : TableValue :=
  ⟨⟨"", [], [], 0⟩, [[Inline.Str "Second", Inline.Space, Inline.Str "\x7b#tbl:tagged",
    Inline.Space, Inline.Str "tag=\"B-1\"\x7d"]], 0⟩

def c6table3 : TableValue :=
  ⟨⟨"", [], [], 0⟩, [[Inline.Str "Third", Inline.Space, Inline.Str "\x7b#tbl:other\x7d"]], 0⟩

def c6doc : List Block :=
  [Block.TableB c6table1, Block.TableB c6table2, Block.TableB c6table3,
   Block.Para [Inline.Str "See", Inline.Space, Inline.Cite "tbl:other" "@tbl:other"]]

/-- C6: in the concrete three-table document (labels tbl:results, tbl:tagged
with tag "B-1", tbl:other; one section; section numbering off; caption name
"Table"; colon separator; a non-TeX output target), the rewritten captions
begin with "Table 1:", "Table B-1:" and "Table 2:" (the glyph between the
caption name and the rendered target being the non-breaking space NBSP), the
original caption text follows after a space, and the citation of tbl:other
renders as the text "Table 2". -/
theorem C6_concrete_scenario :
    runTransform ⟨"Table", "colon", false, 0⟩ "markdown" c6doc = Except.ok
      [Block.TableB ⟨⟨"tbl:results", [], [], 0⟩,
         [[Inline.Str ("Table" ++ NBSP), Inline.Str "1:", Inline.Space,
           Inline.Str "First"]], 0⟩,
       Block.TableB ⟨⟨"tbl:tagged", [], [("tag", "\"B-1\"")], 0⟩,
         [[Inline.Str ("Table" ++ NBSP), Inline.Str "B-1:", Inline.Space,
           Inline.Str "Second"]], 0⟩,
       Block.TableB ⟨⟨"tbl:other", [], [], 0⟩,
         [[Inline.Str ("Table" ++ NBSP), Inline.Str "2:", Inline.Space,
           Inline.Str "Third"]], 0⟩,
       Block.Para [Inline.Str "See", Inline.Space, Inline.Str "Table 2"]] := rfl

/-- A fully resolved inline node: no attribute-clause opener text and no
remaining citation. -/
def inlineResolved : Inline → Bool
  | Inline.Str s => if s.toList.head? = some braceOpen then false else true
  | Inline.Cite _ _ => false
  | _ => true

/-- A fully resolved block: no caption carries an attribute clause and no
citation pattern remains anywhere. -/
def blockResolved : Block → Bool
  | Block.Para xs => xs.all inlineResolved
  | Block.TableB v => v.captionBlocks.all (fun c => c.all inlineResolved)
  | Block.RawBlock _ _ => true

/-- A resolved table from a previous run: the caption was already rewritten,
and (pandoc >= 2.10) the attributes still carry the label id. -/
def c8resolved : TableValue :=
  ⟨⟨"tbl:x", [], [], 0⟩,
   [[Inline.Str ("Table" ++ NBSP), Inline.Str "1:", Inline.Space, Inline.Str "Stuff"]], 0⟩

/-- C8 counterexample: a fully resolved one-table tree (no attribute clause,
no citation) is not a fixed point of the transform — the table still carries
its label id, so a second run renumbers it and prepends the caption prefix
again. -/
theorem C8_counterexample :
    ([Block.TableB c8resolved].all blockResolved) = true ∧
    runTransform ⟨"Table", "colon", false, 0⟩ "markdown" [Block.TableB c8resolved] ≠
      Except.ok [Block.TableB c8resolved] := by
  exact ⟨rfl, by decide⟩

theorem strStartsWithBrace_false_of_resolved (i : Inline)
    (h : inlineResolved i = true) : strStartsWithBrace i = false := by
  cases i with
  | Str s =>
      simp only [inlineResolved] at h
      by_cases hb : s.toList.head? = some braceOpen
      · rw [if_pos hb] at h; exact absurd h (by decide)
      · simp only [strStartsWithBrace, decide_eq_false_iff_not]
        exact hb
  | Cite l raw => exact absurd h (by simp [inlineResolved])
  | Space => rfl
  | RawInline a b => rfl
  | MathInline m => rfl

theorem splitAtBrace_none (cap : List Inline)
    (h : ∀ i ∈ cap, strStartsWithBrace i = false) : splitAtBrace cap = none := by
  induction cap with
  | nil => rfl
  | cons i r ih =>
      have h1 : strStartsWithBrace i = false := h i (List.mem_cons_self i r)
      have h2 : splitAtBrace r = none := ih (fun j hj => h j (List.mem_cons_of_mem i hj))
      simp [splitAtBrace, h1, h2]

theorem attachAttrsTable_resolved (v : TableValue)
    (hres : blockResolved (Block.TableB v) = true) : attachAttrsTable v = v := by
  cases hcb : v.captionBlocks with
  | nil => simp [attachAttrsTable, hcb]
  | cons cap rest =>
      have h' : cap.all inlineResolved = true := by
        simp only [blockResolved, hcb, List.all_cons, Bool.and_eq_true] at hres
        exact hres.1
      have hall : ∀ i ∈ cap, strStartsWithBrace i = false := fun i hi =>
        strStartsWithBrace_false_of_resolved i (by
          rw [List.all_eq_true] at h'
          exact h' i hi)
      simp [attachAttrsTable, hcb, splitAtBrace_none cap hall]

theorem replaceRefsInline_resolved (cfg : Config) (ts : Targets) (i : Inline)
    (h : inlineResolved i = true) : replaceRefsInline cfg ts i = i := by
  cases i with
  | Cite l raw => exact absurd h (by simp [inlineResolved])
  | Str s => rfl
  | Space => rfl
  | RawInline a b => rfl
  | MathInline m => rfl

theorem replaceRefs_map_resolved (cfg : Config) (ts : Targets) (l : List Inline)
    (h : l.all inlineResolved = true) : l.map (replaceRefsInline cfg ts) = l := by
  induction l with
  | nil => rfl
  | cons i r ih =>
      simp only [List.all_cons, Bool.and_eq_true] at h
      simp [replaceRefsInline_resolved cfg ts i h.1, ih h.2]

theorem replaceRefs_blocks_resolved (cfg : Config) (ts : Targets)
    (r : List (List Inline)) (h : ∀ b ∈ r, b.all inlineResolved = true) :
    r.map (List.map (replaceRefsInline cfg ts)) = r := by
  induction r with
  | nil => rfl
  | cons b rest ih =>
      simp [replaceRefs_map_resolved cfg ts b (h b (List.mem_cons_self _ _)),
            ih (fun x hx => h x (List.mem_cons_of_mem b hx))]

theorem adjustCaption_markdown (cfg : Config) (sep : String) (st : FilterState)
    (info : TableInfo) (v : TableValue) (t : Target) (n : Nat)
    (c : List Inline) (r : List (List Inline))
    (hcap : v.captionBlocks = c :: r)
    (hlk : lookupTarget st.targets info.attrs.id = some t)
    (hn : t.num = TargetNum.num n)
    (hsep : sepGlyph cfg.separator = some sep) :
    adjustCaption cfg "markdown" st info v = Except.ok
      { v with captionBlocks :=
        ([Inline.Str (cfg.captionname ++ NBSP), Inline.Str (toString n ++ sep),
          Inline.Space] ++ info.caption) :: r } := by
  have hlatex : isLatexFmt "markdown" = false := rfl
  have hhtml : isHtmlFmt "markdown" = false := rfl
  simp [adjustCaption, hlk, hsep, hn, hlatex, hhtml, setCaptionContent,
        appendCaptionContent, hcap, Bind.bind, Except.bind]

theorem addMarkup_markdown (st : FilterState) (info : TableInfo) (v : TableValue)
    (hun : info.is_unnumbered = false) :
    addMarkup "markdown" st info v = Except.ok (st, none) := by
  have hlatex : isLatexFmt "markdown" = false := rfl
  have hhtml : isHtmlFmt "markdown" = false := rfl
  simp [addMarkup, hun, hlatex, hhtml]

/-- One markdown-format table-processing step on an untagged well-labeled
table (section numbering off): the caption gets the prefix prepended and the
block is kept in place. -/
theorem processTablesBlock_markdown_untagged (cfg : Config) (sep : String)
    (st : FilterState) (v : TableValue) (c : List Inline) (r : List (List Inline))
    (hns : cfg.numbersections = false)
    (hm : matchesLabel v.attrs.id = true) (ha : ¬ v.attrs.id = "tbl:")
    (ht : lookupKV v.attrs.kvs "tag" = none)
    (hcap : v.captionBlocks = c :: r)
    (hsep : sepGlyph cfg.separator = some sep) :
    processTablesBlock cfg "markdown" st (Block.TableB v) = Except.ok
      ({ st with cursec := some v.attrs.secno, Ntargets := st.Ntargets + 1,
                 targets := setTarget st.targets v.attrs.id
                   { num := TargetNum.num (st.Ntargets + 1), secno := some v.attrs.secno,
                     has_duplicate := containsTarget st.targets v.attrs.id } },
       [Block.TableB { v with captionBlocks :=
         ([Inline.Str (cfg.captionname ++ NBSP),
           Inline.Str (toString (st.Ntargets + 1) ++ sep), Inline.Space] ++ c) :: r }]) := by
  have hid : ¬ v.attrs.id = "" := matchesLabel_ne_empty v.attrs.id hm
  have hstep := processTable_untagged cfg "markdown" st v hm ha ht
  rw [untaggedN_not_ns cfg st v.attrs.secno hns,
      untaggedTarget_not_ns cfg "markdown" st v.attrs.secno hns,
      untaggedKvs_not_ns cfg "markdown" st v.attrs hns] at hstep
  have hadj := adjustCaption_markdown cfg sep
    { st with cursec := some v.attrs.secno, Ntargets := st.Ntargets + 1,
              targets := setTarget st.targets v.attrs.id
                { num := TargetNum.num (st.Ntargets + 1), secno := some v.attrs.secno,
                  has_duplicate := containsTarget st.targets v.attrs.id } }
    { is_unnumbered := false, is_unreferenceable := false,
      is_tagged := decide (cfg.numbersections ∧ isHtmlOrDocx "markdown" = true),
      attrs := { v.attrs with kvs := v.attrs.kvs },
      caption := captionOf v }
    v _ (st.Ntargets + 1) c r hcap (lookupTarget_setTarget_self _ _ _) rfl hsep
  simp only [processTablesBlock, hstep, Bind.bind, Except.bind]
  rw [if_pos hid, hadj]
  dsimp only
  rw [addMarkup_markdown]
  · simp only [captionOf, hcap, Option.getD]
    rfl
  · rfl

/-- C8 amended: for the pandoc >= 2.10 schema the transform is not idempotent
on fully resolved trees: attributes are not detached after processing, so a
resolved table still carrying a label-matching id is renumbered on the next
run and the caption prefix is prepended a second time; the run's output
differs from its input (here for a one-table document, an untagged label,
section numbering off, a generic non-TeX format). -/
theorem C8_amended_not_idempotent (cfg : Config) (sep : String) (v : TableValue)
    (c : List Inline) (r : List (List Inline))
    (hns : cfg.numbersections = false)
    (hm : matchesLabel v.attrs.id = true) (ha : ¬ v.attrs.id = "tbl:")
    (ht : lookupKV v.attrs.kvs "tag" = none)
    (hcap : v.captionBlocks = c :: r)
    (hres : blockResolved (Block.TableB v) = true)
    (hsep : sepGlyph cfg.separator = some sep) :
    runTransform cfg "markdown" [Block.TableB v] = Except.ok
      [Block.TableB { v with captionBlocks :=
        ([Inline.Str (cfg.captionname ++ NBSP), Inline.Str (toString 1 ++ sep),
          Inline.Space] ++ c) :: r }] ∧
    runTransform cfg "markdown" [Block.TableB v] ≠ Except.ok [Block.TableB v] := by
  have hattach : attachAttrsTable v = v := attachAttrsTable_resolved v hres
  have hblock := processTablesBlock_markdown_untagged cfg sep initState v c r
    hns hm ha ht hcap hsep
  have hres' : ∀ b ∈ v.captionBlocks, ∀ i ∈ b, inlineResolved i = true := by
    simp only [blockResolved, List.all_eq_true] at hres
    exact hres
  have hcres : c.all inlineResolved = true :=
    List.all_eq_true.mpr (hres' c (by rw [hcap]; exact List.mem_cons_self _ _))
  have hrres : ∀ b ∈ r, b.all inlineResolved = true := fun b hb =>
    List.all_eq_true.mpr (hres' b (by rw [hcap]; exact List.mem_cons_of_mem c hb))
  have hmain : runTransform cfg "markdown" [Block.TableB v] = Except.ok
      [Block.TableB { v with captionBlocks :=
        ([Inline.Str (cfg.captionname ++ NBSP), Inline.Str (toString 1 ++ sep),
          Inline.Space] ++ c) :: r }] := by
    unfold runTransform runTransformFrom
    simp only [List.map, attachBlock, hattach, processBlocks, hblock,
               Bind.bind, Except.bind]
    simp only [List.append_nil, pure, Except.pure, Except.map, replaceRefsBlock,
               List.map_cons, List.map_nil, List.map_append]
    rw [replaceRefs_blocks_resolved _ _ r hrres,
        replaceRefs_map_resolved _ _ c hcres]
    simp only [replaceRefsInline]
    rfl
  refine ⟨hmain, ?_⟩
  intro hEq
  rw [hmain] at hEq
  have h1 := Except.ok.inj hEq
  have h2 : Block.TableB { v with captionBlocks :=
      ([Inline.Str (cfg.captionname ++ NBSP), Inline.Str (toString 1 ++ sep),
        Inline.Space] ++ c) :: r } = Block.TableB v := by
    injection h1
  have h3 : ({ v with captionBlocks :=
      ([Inline.Str (cfg.captionname ++ NBSP), Inline.Str (toString 1 ++ sep),
        Inline.Space] ++ c) :: r } : TableValue) = v := by
    injection h2
  have h4 := congrArg TableValue.captionBlocks h3
  rw [hcap] at h4
  have h5 : ([Inline.Str (cfg.captionname ++ NBSP), Inline.Str (toString 1 ++ sep),
      Inline.Space] ++ c) = c := (List.cons_eq_cons.mp h4).1
  have h6 := congrArg List.length h5
  simp at h6
  omega

/-- Witness for the C8 amended theorem at the concrete resolved table. -/
theorem C8_amended_witness :
    runTransform ⟨"Table", "colon", false, 0⟩ "markdown" [Block.TableB c8resolved] =
      Except.ok [Block.TableB { c8resolved with captionBlocks :=
        ([Inline.Str ("Table" ++ NBSP), Inline.Str (toString 1 ++ ":"), Inline.Space] ++
          [Inline.Str ("Table" ++ NBSP), Inline.Str "1:", Inline.Space, Inline.Str "Stuff"])
          :: []}] ∧
    runTransform ⟨"Table", "colon", false, 0⟩ "markdown" [Block.TableB c8resolved] ≠
      Except.ok [Block.TableB c8resolved] :=
  C8_amended_not_idempotent ⟨"Table", "colon", false, 0⟩ ":" c8resolved
    [Inline.Str ("Table" ++ NBSP), Inline.Str "1:", Inline.Space, Inline.Str "Stuff"] []
    rfl (by decide) (by decide) rfl rfl (by decide) rfl

/-- A one-table document used to exhibit cross-document state. -/
def c9doc : List Block :=
  [Block.TableB ⟨⟨"tbl:a", [], [], 0⟩, [[Inline.Str "A"]], 0⟩]

/-- C9 counterexample: the module-level state is not recreated between
transforms in one process — main never reinitializes targets, the counter or
the flags.  Transforming the same one-table document twice in sequence gives
a second output (table numbered 2, duplicate flag set) that differs from the
output of transforming it alone in a fresh process (table numbered 1). -/
theorem C9_counterexample :
    ((runTransformFrom ⟨"Table", "colon", false, 0⟩ "markdown" initState c9doc).bind
        (fun p => runTransformFrom ⟨"Table", "colon", false, 0⟩ "markdown" p.1 c9doc)).map
        (fun p => p.2) ≠
      (runTransformFrom ⟨"Table", "colon", false, 0⟩ "markdown" initState c9doc).map
        (fun p => p.2) := by decide

/-- C9 amended: the configuration record and the processing state are
module-level globals initialized at import time and never reset by main, so
freshness across documents holds only because the command-line filter runs
one document per process.  Within one process the state persists: a table
processed with a carried-over counter value receives that value plus one, not
the number 1 a fresh process would assign. -/
theorem C9_amended_state_persists (cfg : Config) (fmt : String) (st : FilterState)
    (v : TableValue)
    (hns : cfg.numbersections = false)
    (hm : matchesLabel v.attrs.id = true) (ha : ¬ v.attrs.id = "tbl:")
    (ht : lookupKV v.attrs.kvs "tag" = none)
    (hN : ¬ st.Ntargets = 0) :
    ∃ st' info, processTable cfg fmt st v = Except.ok (st', info) ∧
      (lookupTarget st'.targets v.attrs.id).map Target.num
        = some (TargetNum.num (st.Ntargets + 1)) ∧
      ¬ TargetNum.num (st.Ntargets + 1) = TargetNum.num 1 := by
  refine ⟨_, _, processTable_untagged cfg fmt st v hm ha ht, ?_, ?_⟩
  · rw [lookupTarget_setTarget_self,
      untaggedTarget_not_ns cfg fmt st v.attrs.secno hns]
    rfl
  · intro hh
    injection hh with hh'
    omega

/-- Witness for the C9 amended theorem: a state carried over from a document
that already numbered one table. -/
theorem C9_amended_witness :
    ∃ st' info,
      processTable ⟨"Table", "colon", false, 0⟩ "markdown"
        { cursec := some 0, Ntargets := 1,
          targets := [("tbl:a", ⟨TargetNum.num 1, some 0, false⟩)],
          has_unnumbered_tables := false, has_tagged_tables := false, uuidCount := 0 }
        ⟨⟨"tbl:b", [], [], 0⟩, [[Inline.Str "B"]], 0⟩ = Except.ok (st', info) ∧
      (lookupTarget st'.targets "tbl:b").map Target.num
        = some (TargetNum.num (1 + 1)) ∧
      ¬ TargetNum.num (1 + 1) = TargetNum.num 1 :=
  C9_amended_state_persists ⟨"Table", "colon", false, 0⟩ "markdown" _ _
    rfl (by decide) (by decide) rfl (by decide)

end Tablenos
